import Mathlib

/-!
# Verification of the Pseudo-Terminal Session Manager (`src-tauri/src/pty.rs`)

Shallow embedding of the PTY session manager of the repository.  OS handles
(the PTY pair, the master-side writer, the child process handle) are
represented by the generation number of the `spawn_pty` call that created
them; the three `Arc<Mutex<Option<...>>>` slots of `PtyState` (pty.rs,
lines 9-13) become three `Option Nat` fields.  Fallible OS calls are driven
by explicit outcome parameters (the OS oracle), and the observable effects
of a call are returned as an action trace next to the new state.
-/

/-- The manager state (`PtyState`, pty.rs lines 9-23).  Each slot holds the
generation number of the session whose handle currently occupies it, or
`none` when the slot is empty (`Default` initialises all three to `None`). -/
structure PtyState where
  pty_pair : Option Nat
  writer : Option Nat
  child : Option Nat
deriving DecidableEq

/-- `PtyState::default()`: all three slots empty (pty.rs lines 15-23). -/
def PtyState.default : PtyState := ⟨none, none, none⟩

/-- The failure points of `spawn_pty`, in source order: `openpty` (line 41),
`spawn_command` (line 51), `try_clone_reader` (line 53), `take_writer`
(line 54), and the write of the initial command (line 57). -/
inductive SpawnFail
  | openptyFail
  | spawnCommandFail
  | cloneReaderFail
  | takeWriterFail
  | initialWriteFail
deriving DecidableEq

/-- Outcome oracle for one `spawn_pty` call: either every fallible step
succeeds, or the named step fails. -/
inductive SpawnOutcome
  | success
  | failure (f : SpawnFail)
deriving DecidableEq

/-- Observable actions of `spawn_pty` and `kill_pty`, in program order. -/
inductive SAction
  | killOldChild (c : Nat)
  | waitOldChild (c : Nat)
  | openpty
  | spawnCommand (c : Nat)
  | writeInitial (s : String)
  | installPair
  | installWriter
  | installChild
  | startReaderLoop
deriving DecidableEq

/-- `spawn_pty` (pty.rs lines 25-99).  First the existing child, if any, is
taken from its slot, killed and waited (lines 33-37).  Then the PTY pair is
allocated (lines 41-48), the shell is spawned (lines 50-51), reader and
writer are derived from the master (lines 53-54), the optional initial
command plus `"\n"` is written (lines 56-58), the pair, writer and child
are stored (lines 60-67) and the reader thread is started (line 73).  Every
`?` failure returns before anything is stored, so on failure the only state
change is the cleared child slot. -/
def spawn_pty (st : PtyState) (gen : Nat) (initial_command : Option String)
    (outcome : SpawnOutcome) : PtyState × Except String Unit × List SAction :=
  let pre : List SAction :=
    match st.child with
    | some c => [.killOldChild c, .waitOldChild c]
    | none => []
  let st1 : PtyState := { st with child := none }
  match outcome with
  | .failure .openptyFail => (st1, .error "openpty failed", pre)
  | .failure .spawnCommandFail =>
      (st1, .error "spawn_command failed", pre ++ [.openpty])
  | .failure .cloneReaderFail =>
      (st1, .error "try_clone_reader failed", pre ++ [.openpty, .spawnCommand gen])
  | .failure .takeWriterFail =>
      (st1, .error "take_writer failed", pre ++ [.openpty, .spawnCommand gen])
  | .failure .initialWriteFail =>
      (st1, .error "initial write failed", pre ++ [.openpty, .spawnCommand gen])
  | .success =>
      let writeActs : List SAction :=
        match initial_command with
        | some cmd => [.writeInitial (cmd ++ "\n")]
        | none => []
      ({ pty_pair := some gen, writer := some gen, child := some gen },
       .ok (),
       pre ++ [.openpty, .spawnCommand gen] ++ writeActs
           ++ [.installPair, .installWriter, .installChild, .startReaderLoop])

/-- `write_pty` (pty.rs lines 101-107).  When the writer slot is occupied the
data is forwarded and an I/O failure is reported; when the slot is empty the
`if let` body is skipped and the function falls through to `Ok(())`. -/
def write_pty (st : PtyState) (_data : String) (io_ok : Bool) :
    Except String Unit :=
  match st.writer with
  | some _ => if io_ok then .ok () else .error "write failed"
  | none => .ok ()

/-- `resize_pty` (pty.rs lines 109-122).  When the pair slot is occupied the
master is resized and an I/O failure is reported; when the slot is empty the
`if let` body is skipped and the function falls through to `Ok(())`. -/
def resize_pty (st : PtyState) (_cols _rows : Nat) (io_ok : Bool) :
    Except String Unit :=
  match st.pty_pair with
  | some _ => if io_ok then .ok () else .error "resize failed"
  | none => .ok ()

/-- `kill_pty` (pty.rs lines 124-133): take the child if present, kill and
wait it, then clear the pair and writer slots; always returns `Ok(())`. -/
def kill_pty (st : PtyState) : PtyState × Except String Unit × List SAction :=
  match st.child with
  | some c => (⟨none, none, none⟩, .ok (), [.killOldChild c, .waitOldChild c])
  | none => (⟨none, none, none⟩, .ok (), [])

/-- Session status as polled by the UI.  Modelled from the spec: §6 requires
the core to expose a session-status query (`Idle | Running`); no such query
exists in `pty.rs`, so it is defined here from the spec as a derived view of
the state: `Idle` exactly when the manager holds no session. -/
inductive SessionStatus
  | Idle
  | Running
deriving DecidableEq

/-- Modelled from the spec: the session-status query of §6 ("the core must
expose a session-status query (`Idle | Running`)"), absent from `pty.rs`:
`Idle` when all session slots are empty, `Running` otherwise. -/
def sessionStatus (st : PtyState) : SessionStatus :=
  if st.pty_pair = none ∧ st.writer = none ∧ st.child = none then .Idle
  else .Running

/-- One public operation of the session manager, with its OS oracle. -/
inductive Op
  | spawn (initial_command : Option String) (outcome : SpawnOutcome)
  | write (data : String) (io_ok : Bool)
  | resize (cols rows : Nat) (io_ok : Bool)
  | kill
deriving DecidableEq

/-- Whether an operation is a `spawn`. -/
def Op.isSpawn : Op → Bool
  | .spawn _ _ => true
  | _ => false

/-- The session manager: the shared state plus a counter supplying a fresh
generation number to each `spawn_pty` call. -/
structure Manager where
  st : PtyState
  nextGen : Nat
deriving DecidableEq

/-- Sequential small-step semantics of the public operations: each Tauri
command runs to completion before the next (the caller-side view; the
reader thread never mutates the pair, writer or child-ownership slots —
its teardown only borrows the child slot, pty.rs line 93). -/
def Manager.step (m : Manager) (op : Op) : Manager :=
  match op with
  | .spawn cmd outcome =>
      { st := (spawn_pty m.st m.nextGen cmd outcome).1, nextGen := m.nextGen + 1 }
  | .write _ _ => m
  | .resize _ _ _ => m
  | .kill => { m with st := (kill_pty m.st).1 }

/-- Run a sequence of public operations from the freshly initialised
manager. -/
def Manager.run (ops : List Op) : Manager :=
  ops.foldl Manager.step ⟨PtyState.default, 0⟩

/-!
## The reader loop

`spawn_pty` starts one background thread (pty.rs lines 73-96) that reads
the master side into a 1024-byte buffer, decodes each chunk with
`String::from_utf8_lossy` and emits it as a `pty-output` event, until EOF
(`Ok(0)`), a read error, or an emit failure, and then performs the
child-wait teardown (lines 92-95).  Bytes are `Nat` values below 256; the
decoder below implements the lossy UTF-8 decoding used by
`String::from_utf8_lossy` (invalid maximal subparts become U+FFFD).
-/

/-- The Unicode replacement character U+FFFD. -/
def replacementChar : Char := Char.ofNat 0xFFFD

/-- Is a byte a UTF-8 continuation byte (0x80-0xBF)? -/
def isCont (b : Nat) : Bool := 0x80 ≤ b && b ≤ 0xBF

/-- Decode one UTF-8 scalar (or one invalid maximal subpart, yielding the
replacement character) from the byte `b` followed by `rest`; returns the
decoded character and the remaining bytes. -/
def utf8DecodeStep (b : Nat) (rest : List Nat) : Char × List Nat :=
  if b < 0x80 then (Char.ofNat b, rest)
  else if 0xC2 ≤ b && b ≤ 0xDF then
    match rest with
    | b2 :: r2 =>
        if isCont b2 then (Char.ofNat ((b - 0xC0) * 64 + (b2 - 0x80)), r2)
        else (replacementChar, rest)
    | [] => (replacementChar, [])
  else if 0xE0 ≤ b && b ≤ 0xEF then
    let lo2 : Nat := if b = 0xE0 then 0xA0 else 0x80
    let hi2 : Nat := if b = 0xED then 0x9F else 0xBF
    match rest with
    | b2 :: r2 =>
        if lo2 ≤ b2 && b2 ≤ hi2 then
          match r2 with
          | b3 :: r3 =>
              if isCont b3 then
                (Char.ofNat ((b - 0xE0) * 4096 + (b2 - 0x80) * 64 + (b3 - 0x80)), r3)
              else (replacementChar, r2)
          | [] => (replacementChar, [])
        else (replacementChar, rest)
    | [] => (replacementChar, [])
  else if 0xF0 ≤ b && b ≤ 0xF4 then
    let lo2 : Nat := if b = 0xF0 then 0x90 else 0x80
    let hi2 : Nat := if b = 0xF4 then 0x8F else 0xBF
    match rest with
    | b2 :: r2 =>
        if lo2 ≤ b2 && b2 ≤ hi2 then
          match r2 with
          | b3 :: r3 =>
              if isCont b3 then
                match r3 with
                | b4 :: r4 =>
                    if isCont b4 then
                      (Char.ofNat ((b - 0xF0) * 262144 + (b2 - 0x80) * 4096
                          + (b3 - 0x80) * 64 + (b4 - 0x80)), r4)
                    else (replacementChar, r3)
                | [] => (replacementChar, [])
              else (replacementChar, r2)
          | [] => (replacementChar, [])
        else (replacementChar, rest)
    | [] => (replacementChar, [])
  else (replacementChar, rest)

/-- Fuelled decoding loop; each step consumes at least one byte, so fuel
equal to the length of the input never runs out. -/
def utf8LossyGo : Nat → List Nat → List Char
  | _, [] => []
  | 0, _ :: _ => []
  | fuel + 1, b :: rest =>
      let s := utf8DecodeStep b rest
      s.1 :: utf8LossyGo fuel s.2

/-- `String::from_utf8_lossy(bytes).to_string()` (pty.rs line 78). -/
def utf8Lossy (l : List Nat) : String := String.mk (utf8LossyGo l.length l)

/-- One outcome of the blocking `reader.read(&mut buffer)` call, chosen by
the OS: either up to `req` buffered bytes are available (`req = 0` or an
exhausted stream models `Ok(0)`, i.e. EOF), or the read fails. -/
inductive OsRead
  | data (req : Nat)
  | ioerr
deriving DecidableEq

/-- Observable actions of the reader thread, in program order. -/
inductive RAction
  | read (bytes : List Nat)
  | emit (text : String) (ok : Bool)
  | readEof
  | readErr
  | teardownWait
deriving DecidableEq

/-- The read buffer is `[0u8; 1024]` (pty.rs line 74). -/
def bufferSize : Nat := 1024

/-- The read loop of the reader thread (pty.rs lines 75-90) over the pending
master-side byte `stream`, the OS read-outcome schedule `sched`, and the
per-emit success oracle `emits`.  Returns the loop trace and whether the
loop exited (`break`); a `false` second component means the schedule ran
out while the loop was still blocked reading. -/
def readerLoop (stream : List Nat) (sched : List OsRead) (emits : List Bool) :
    List RAction × Bool :=
  match sched with
  | [] => ([], false)
  | .ioerr :: _ => ([.readErr], true)
  | .data req :: rest =>
      let n := min (min req bufferSize) stream.length
      if n = 0 then ([.readEof], true)
      else
        let chunk := stream.take n
        if emits.headD true then
          let r := readerLoop (stream.drop n) rest emits.tail
          (.read chunk :: .emit (utf8Lossy chunk) true :: r.1, r.2)
        else ([.read chunk, .emit (utf8Lossy chunk) false], true)

/-- The whole reader thread: the read loop followed, once the loop has
exited, by the child-wait teardown (pty.rs lines 92-95). -/
def readerThread (stream : List Nat) (sched : List OsRead) (emits : List Bool) :
    List RAction :=
  let r := readerLoop stream sched emits
  r.1 ++ if r.2 then [RAction.teardownWait] else []

/-- The chunks obtained by the `read` calls of a trace, in order. -/
def readChunks : List RAction → List (List Nat)
  | [] => []
  | .read bs :: tr => bs :: readChunks tr
  | _ :: tr => readChunks tr

/-- The texts of the emitted `pty-output` events of a trace, in order
(both delivered and failed emissions carry their text). -/
def emittedTexts : List RAction → List String
  | [] => []
  | .emit s _ :: tr => s :: emittedTexts tr
  | _ :: tr => emittedTexts tr

/-- Is this action a failed emission? -/
def isFailedEmit : RAction → Bool
  | .emit _ false => true
  | _ => false

/-- Does the trace contain a failed emission? -/
def hasFailedEmit (tr : List RAction) : Bool := tr.any isFailedEmit

/-- A failed emission, when present, is the last action of the loop trace:
nothing is read or emitted after it. -/
def stopsAfterFailedEmit : List RAction → Bool
  | [] => true
  | a :: rest => if isFailedEmit a then rest.isEmpty else stopsAfterFailedEmit rest

/-!
## Combined spawn / reader ordering

Every action of `spawn_pty` up to and including `thread::spawn`
(pty.rs line 73) happens before every action of the reader thread it
creates, so appending the reader trace to the spawn trace is a
linearisation consistent with happens-before (after `thread::spawn`,
`spawn_pty` only returns `Ok(())`).
-/

/-- An action of either the spawning caller or the reader thread. -/
inductive LinAction
  | spawnAct (a : SAction)
  | readerAct (a : RAction)
deriving DecidableEq

/-- A happens-before-consistent linearisation of one `spawn_pty` call and
the reader thread it starts (no thread is started on failure). -/
def spawn_then_reader (st : PtyState) (gen : Nat) (initial_command : Option String)
    (outcome : SpawnOutcome) (stream : List Nat) (sched : List OsRead)
    (emits : List Bool) : List LinAction :=
  ((spawn_pty st gen initial_command outcome).2.2).map LinAction.spawnAct ++
    match outcome with
    | .success => (readerThread stream sched emits).map LinAction.readerAct
    | .failure _ => []

/-!
## Interleavings of the child-slot critical sections

The child slot `Arc<Mutex<Option<Box<dyn Child>>>>` is touched by three
code paths, each a critical section under the slot mutex:

* `take()` + `kill()` + `wait()` — the replacement prologue of `spawn_pty`
  (pty.rs lines 33-37) and the body of `kill_pty` (lines 126-129);
* the store of the new child (line 67);
* the reader-thread teardown, which borrows the slot with `as_mut()` and
  waits on whatever child it finds, leaving it in the slot (lines 92-95).

The model below executes an interleaving (a list of thread-tagged
instructions) of these atomic sections, tracking the slot, the set of
live children and the log of `wait` calls.  A trace is admissible when
each thread performs exactly its program, in program order, and a reader
thread acts only after the `thread::spawn` that created it.
-/

/-- A thread: the command caller, or the reader thread of session `s`. -/
inductive ThreadId
  | main
  | reader (s : Nat)
deriving DecidableEq

/-- One critical section on the child slot (plus the two bookkeeping
events `spawnChild` and `startReader`, which do not touch the slot). -/
inductive CInstr
  | takeAndWait
  | spawnChild (c : Nat)
  | installChild (c : Nat)
  | startReader (s : Nat)
  | teardownWait
deriving DecidableEq

/-- Shared state of the interleaving semantics. -/
structure CSys where
  slot : Option Nat
  alive : List Nat
  waits : List (ThreadId × Nat)
deriving DecidableEq

/-- Effect of one atomic section.  `takeAndWait` empties the slot and
kills and waits its occupant; `teardownWait` waits on the occupant but
leaves it in the slot (`as_mut`, pty.rs line 93). -/
def cstep (sys : CSys) (ev : ThreadId × CInstr) : CSys :=
  match ev.2 with
  | .takeAndWait =>
      match sys.slot with
      | some c =>
          { slot := none, alive := sys.alive.erase c,
            waits := sys.waits ++ [(ev.1, c)] }
      | none => sys
  | .spawnChild c => { sys with alive := sys.alive ++ [c] }
  | .installChild c => { sys with slot := some c }
  | .startReader _ => sys
  | .teardownWait =>
      match sys.slot with
      | some c => { sys with waits := sys.waits ++ [(ev.1, c)] }
      | none => sys

/-- Execute an interleaving from the initial state. -/
def crun (tr : List (ThreadId × CInstr)) : CSys :=
  tr.foldl cstep ⟨none, [], []⟩

/-- The instructions executed by thread `t`, in order. -/
def eventsOf (t : ThreadId) (tr : List (ThreadId × CInstr)) : List CInstr :=
  (tr.filter fun e => e.1 = t).map fun e => e.2

/-- A reader thread may only act after the `startReader` event that
created it. -/
def respectsStart : List (ThreadId × CInstr) → List Nat → Bool
  | [], _ => true
  | (.main, .startReader s) :: tr, started => respectsStart tr (s :: started)
  | (.reader s, _) :: tr, started => started.contains s && respectsStart tr started
  | _ :: tr, started => respectsStart tr started

/-- The caller program of the scenario `spawn` (session 0) then `spawn`
again (session 1): pty.rs lines 33-37, 51, 67, 73, twice. -/
def mainProg : List CInstr :=
  [.takeAndWait, .spawnChild 0, .installChild 0, .startReader 0,
   .takeAndWait, .spawnChild 1, .installChild 1, .startReader 1]

/-- The child-slot critical sections of one reader thread: only the
teardown wait (the read loop itself never touches the child slot). -/
def readerProg : List CInstr := [.teardownWait]

/-- Admissible interleavings of the two-spawn scenario: only the caller
and the two reader threads act, each performs exactly its program in
order, and each reader acts only after it was started. -/
def wellFormedTwoSpawn (tr : List (ThreadId × CInstr)) : Bool :=
  decide (eventsOf .main tr = mainProg) &&
  decide (eventsOf (.reader 0) tr = readerProg) &&
  decide (eventsOf (.reader 1) tr = readerProg) &&
  tr.all (fun e => e.1 = ThreadId.main ∨ e.1 = ThreadId.reader 0 ∨
    e.1 = ThreadId.reader 1) &&
  respectsStart tr []

/-- The racing interleaving: the caller replaces session 0 by session 1
before reader 0 has torn down (reader 0 sees EOF once child 0 is killed,
then — pty.rs line 93 — waits on whatever the shared slot now holds,
namely child 1; reader 1 sees EOF when shell 1 later exits and waits on
child 1 again). -/
def doubleWaitTrace : List (ThreadId × CInstr) :=
  [(.main, .takeAndWait), (.main, .spawnChild 0),
   (.main, .installChild 0), (.main, .startReader 0),
   (.main, .takeAndWait), (.main, .spawnChild 1),
   (.main, .installChild 1), (.main, .startReader 1),
   (.reader 0, .teardownWait), (.reader 1, .teardownWait)]

/-- Alternative interleaving of the two-spawn scenario in which session 1's
reader tears down before session 0's; admissible, and session 0's reader
acts only after the new reader loop has been started. -/
def readerOutlivesTrace : List (ThreadId × CInstr) :=
  [(.main, .takeAndWait), (.main, .spawnChild 0),
   (.main, .installChild 0), (.main, .startReader 0),
   (.main, .takeAndWait), (.main, .spawnChild 1),
   (.main, .installChild 1), (.main, .startReader 1),
   (.reader 1, .teardownWait), (.reader 0, .teardownWait)]

/-- The slot/alive projection of one child-slot critical section: the
`waits` log aside, `takeAndWait` empties the slot and removes its occupant
from the live set, `installChild` fills the slot, and the other
instructions leave slot and live set unchanged. -/
def saStep (sa : Option Nat × List Nat) (i : CInstr) : Option Nat × List Nat :=
  match i with
  | .takeAndWait =>
      match sa.1 with
      | some c => (none, sa.2.erase c)
      | none => sa
  | .spawnChild c => (sa.1, sa.2 ++ [c])
  | .installChild c => (some c, sa.2)
  | .startReader _ => sa
  | .teardownWait => sa

/-!
## Theorems
-/

/-- C1, counterexample: in the state where no session is active (the
initial state), `write_pty` and `resize_pty` both return success — neither
returns a `NoActiveSession` error: the empty slot makes the `if let` body
of pty.rs lines 103-105 / 111-120 a no-op and both functions fall through
to `Ok(())`. -/
theorem write_resize_no_session_return_ok_cex :
    write_pty PtyState.default "echo x" true = Except.ok () ∧
    resize_pty PtyState.default 80 24 true = Except.ok () :=
  ⟨rfl, rfl⟩

/-- C1, amended: in every state in which no session is active (empty writer
slot for `write`, empty pair slot for `resize`), `write_pty` and
`resize_pty` silently succeed as no-ops; they never return an error from
such a state. -/
theorem write_resize_noop_without_session (st : PtyState) (data : String)
    (wok : Bool) (cols rows : Nat) (rok : Bool) :
    (st.writer = none → write_pty st data wok = Except.ok ()) ∧
    (st.pty_pair = none → resize_pty st cols rows rok = Except.ok ()) := by
  constructor
  · intro h; simp [write_pty, h]
  · intro h; simp [resize_pty, h]

/-- Witness for the amended C1 at the initial state. -/
theorem write_resize_noop_without_session_witness :
    write_pty PtyState.default "ls" true = Except.ok () ∧
    resize_pty PtyState.default 120 40 true = Except.ok () :=
  ⟨(write_resize_noop_without_session PtyState.default "ls" true 120 40 true).1 rfl,
   (write_resize_noop_without_session PtyState.default "ls" true 120 40 true).2 rfl⟩

/-- C2, counterexample: from a state with an active session (generation 0
in every slot), a `spawn_pty` whose `openpty` call fails returns an error
but does not leave the manager "as if no session were active": the old
session's pair and writer are still installed; only the child slot was
cleared by the replacement prologue (pty.rs lines 33-37). -/
theorem spawn_failure_stale_state_cex :
    (spawn_pty ⟨some 0, some 0, some 0⟩ 1 none (.failure .openptyFail)).2.1
      = Except.error "openpty failed" ∧
    (spawn_pty ⟨some 0, some 0, some 0⟩ 1 none (.failure .openptyFail)).1
      ≠ PtyState.default ∧
    (spawn_pty ⟨some 0, some 0, some 0⟩ 1 none (.failure .openptyFail)).1.writer
      = some 0 ∧
    (spawn_pty ⟨some 0, some 0, some 0⟩ 1 none (.failure .openptyFail)).1.pty_pair
      = some 0 := by
  refine ⟨rfl, ?_, rfl, rfl⟩
  decide

/-- C2, amended: every failing execution of `spawn_pty` (any failure point)
returns an error and installs no component of the new session: the only
state change is the cleared child slot.  In particular, from a state with
no active session the state after the failure is again the no-session
state; but the pair and writer of a previously active session survive. -/
theorem spawn_failure_installs_nothing (st : PtyState) (gen : Nat)
    (cmd : Option String) (f : SpawnFail) :
    (spawn_pty st gen cmd (.failure f)).1 = { st with child := none } ∧
    (spawn_pty st gen cmd (.failure f)).2.1 ≠ Except.ok () := by
  cases f <;> simp [spawn_pty]

/-- Non-spawn operations leave a cleared manager cleared. -/
theorem foldl_nonspawn_default (ops : List Op) :
    ∀ g, (∀ op ∈ ops, op.isSpawn = false) →
      (ops.foldl Manager.step ⟨PtyState.default, g⟩).st = PtyState.default := by
  induction ops with
  | nil => intro g _; rfl
  | cons op rest ih =>
      intro g h
      have hop := h op (List.mem_cons_self _ _)
      have hres : ∀ o ∈ rest, o.isSpawn = false :=
        fun o ho => h o (List.mem_cons_of_mem _ ho)
      cases op with
      | spawn cmd outcome => simp [Op.isSpawn] at hop
      | write d k => exact ih g hres
      | resize c r k => exact ih g hres
      | kill => exact ih g hres

/-- C5: `kill_pty` is idempotent and total: it returns success from every
state (twice in a row included, and with no active session), and after any
call the manager holds no session — all three slots cleared — so the
status is `Idle` and remains `Idle` under any operations other than a
subsequent `spawn`. -/
theorem kill_idempotent_clears_session (st : PtyState) (g : Nat)
    (ops : List Op) :
    (kill_pty st).2.1 = Except.ok () ∧
    (kill_pty st).1 = PtyState.default ∧
    (kill_pty (kill_pty st).1).2.1 = Except.ok () ∧
    (kill_pty (kill_pty st).1).1 = PtyState.default ∧
    sessionStatus (kill_pty st).1 = SessionStatus.Idle ∧
    ((∀ op ∈ ops, op.isSpawn = false) →
      sessionStatus (ops.foldl Manager.step ⟨(kill_pty st).1, g⟩).st
        = SessionStatus.Idle) := by
  obtain ⟨p, w, c⟩ := st
  have hclr : (kill_pty ⟨p, w, c⟩).1 = PtyState.default := by
    cases c <;> rfl
  have hok : (kill_pty ⟨p, w, c⟩).2.1 = Except.ok () := by
    cases c <;> rfl
  refine ⟨hok, hclr, ?_, ?_, ?_, ?_⟩
  · rw [hclr]; rfl
  · rw [hclr]; rfl
  · rw [hclr]; decide
  · intro h
    rw [hclr, foldl_nonspawn_default ops g h]
    decide

/-- Witness for C5: two kills from a running state, then write, resize and
a third kill — success everywhere and the status stays `Idle`. -/
theorem kill_idempotent_clears_session_witness :
    (kill_pty ⟨some 0, some 0, some 0⟩).2.1 = Except.ok () ∧
    sessionStatus
      ([Op.write "x" true, Op.resize 80 24 true, Op.kill].foldl Manager.step
        ⟨(kill_pty ⟨some 0, some 0, some 0⟩).1, 1⟩).st = SessionStatus.Idle :=
  ⟨(kill_idempotent_clears_session ⟨some 0, some 0, some 0⟩ 1 []).1,
   (kill_idempotent_clears_session ⟨some 0, some 0, some 0⟩ 1
      [Op.write "x" true, Op.resize 80 24 true, Op.kill]).2.2.2.2.2
      (by decide)⟩

/-- The writer-lifetime invariant of a manager state: an installed writer
was derived from the pair currently installed (same generation). -/
def writerPaired (st : PtyState) : Prop :=
  ∀ g, st.writer = some g → st.pty_pair = some g

/-- One public operation preserves the writer-lifetime invariant. -/
theorem step_writerPaired (m : Manager) (op : Op) (h : writerPaired m.st) :
    writerPaired (m.step op).st := by
  cases op with
  | spawn cmd outcome =>
      cases outcome with
      | success =>
          intro g hg
          simp [Manager.step, spawn_pty] at hg ⊢
          omega
      | failure f =>
          intro g hg
          have hw : m.st.writer = some g := by
            cases f <;> simpa [Manager.step, spawn_pty] using hg
          have := h g hw
          cases f <;> simpa [Manager.step, spawn_pty]
  | write d k => exact h
  | resize c r k => exact h
  | kill =>
      intro g hg
      rcases hc : m.st.child with _ | c <;>
        simp [Manager.step, kill_pty, hc] at hg

/-- C9: in every state reachable by a sequence of the public operations,
the writer does not outlive the pair: whenever the writer slot is
occupied, the pair slot holds the pair of the same generation — the pair
the writer was derived from. -/
theorem run_writerPaired (ops : List Op) (g : Nat) :
    (Manager.run ops).st.writer = some g →
    (Manager.run ops).st.pty_pair = some g := by
  suffices h : ∀ m, writerPaired m.st →
      writerPaired (ops.foldl Manager.step m).st by
    exact h ⟨PtyState.default, 0⟩ (fun x hx => by simp [PtyState.default] at hx) g
  induction ops with
  | nil => intro m h; exact h
  | cons op rest ih => intro m h; exact ih (m.step op) (step_writerPaired m op h)

/-- Witness for C9 after one successful spawn. -/
theorem run_writerPaired_witness :
    (Manager.run [Op.spawn none SpawnOutcome.success]).st.pty_pair = some 0 :=
  run_writerPaired [Op.spawn none SpawnOutcome.success] 0 rfl


/-- Unfolding: a read that obtains zero bytes is EOF and exits the loop. -/
theorem readerLoop_data_eof (stream : List Nat) (req : Nat)
    (rest : List OsRead) (emits : List Bool)
    (hn : min (min req bufferSize) stream.length = 0) :
    readerLoop stream (OsRead.data req :: rest) emits
      = ([RAction.readEof], true) := by
  simp only [readerLoop]
  rw [if_pos hn]

/-- Unfolding: a successful read followed by a delivered emission recurses
on the rest of the stream and schedule. -/
theorem readerLoop_data_ok (stream : List Nat) (req : Nat)
    (rest : List OsRead) (emits : List Bool)
    (hn : ¬min (min req bufferSize) stream.length = 0)
    (he : emits.headD true = true) :
    readerLoop stream (OsRead.data req :: rest) emits
      = (RAction.read (stream.take (min (min req bufferSize) stream.length))
          :: RAction.emit
              (utf8Lossy (stream.take (min (min req bufferSize) stream.length)))
              true
          :: (readerLoop
              (stream.drop (min (min req bufferSize) stream.length))
              rest emits.tail).1,
         (readerLoop (stream.drop (min (min req bufferSize) stream.length))
            rest emits.tail).2) := by
  simp only [readerLoop]
  rw [if_neg hn, if_pos he]

/-- Unfolding: a successful read followed by a failed emission ends the
trace and exits the loop. -/
theorem readerLoop_data_fail (stream : List Nat) (req : Nat)
    (rest : List OsRead) (emits : List Bool)
    (hn : ¬min (min req bufferSize) stream.length = 0)
    (he : ¬emits.headD true = true) :
    readerLoop stream (OsRead.data req :: rest) emits
      = ([RAction.read (stream.take (min (min req bufferSize) stream.length)),
          RAction.emit
            (utf8Lossy (stream.take (min (min req bufferSize) stream.length)))
            false],
         true) := by
  simp only [readerLoop]
  rw [if_neg hn, if_neg he]

/-- C6: in every run of the read loop, each read obtains a non-empty chunk
of at most the 1024-byte buffer size, and the emitted event texts are the
lossy UTF-8 decodings of exactly the chunks obtained by the reads, one
event per read, in read order — no reordering or batching across reads. -/
theorem reader_emits_lossy_in_order (stream : List Nat) (sched : List OsRead)
    (emits : List Bool) :
    emittedTexts (readerLoop stream sched emits).1
      = (readChunks (readerLoop stream sched emits).1).map utf8Lossy ∧
    (readChunks (readerLoop stream sched emits).1).all
      (fun c => decide (c.length ≤ bufferSize) && decide (c ≠ [])) = true := by
  induction sched generalizing stream emits with
  | nil => exact ⟨rfl, rfl⟩
  | cons ev rest ih =>
      cases ev with
      | ioerr => exact ⟨rfl, rfl⟩
      | data req =>
          by_cases hn : min (min req bufferSize) stream.length = 0
          · rw [readerLoop_data_eof stream req rest emits hn]
            exact ⟨rfl, rfl⟩
          · have hlen : (stream.take
                (min (min req bufferSize) stream.length)).length ≤ bufferSize := by
              rw [List.length_take]
              have h1 : min (min req bufferSize) stream.length ≤ bufferSize :=
                le_trans (Nat.min_le_left _ _) (Nat.min_le_right _ _)
              omega
            have hne : stream.take (min (min req bufferSize) stream.length) ≠ [] := by
              have hpos : 0 < (stream.take
                  (min (min req bufferSize) stream.length)).length := by
                rw [List.length_take]
                have h2 : min (min req bufferSize) stream.length ≤ stream.length :=
                  Nat.min_le_right _ _
                omega
              exact List.length_pos.mp hpos
            by_cases he : emits.headD true = true
            · rw [readerLoop_data_ok stream req rest emits hn he]
              obtain ⟨ih1, ih2⟩ :=
                ih (stream.drop (min (min req bufferSize) stream.length)) emits.tail
              constructor
              · simp only [emittedTexts, readChunks, List.map_cons, ih1]
              · rw [show readChunks (RAction.read (stream.take
                      (min (min req bufferSize) stream.length))
                    :: RAction.emit (utf8Lossy (stream.take
                      (min (min req bufferSize) stream.length))) true
                    :: (readerLoop (stream.drop
                      (min (min req bufferSize) stream.length)) rest emits.tail).1)
                    = stream.take (min (min req bufferSize) stream.length)
                      :: readChunks ((readerLoop (stream.drop
                        (min (min req bufferSize) stream.length)) rest
                        emits.tail).1) from rfl,
                  List.all_cons, ih2]
                simp only [Bool.and_true, Bool.and_eq_true, decide_eq_true_eq]
                exact ⟨hlen, hne⟩
            · rw [readerLoop_data_fail stream req rest emits hn he]
              refine ⟨rfl, ?_⟩
              rw [show readChunks [RAction.read (stream.take
                    (min (min req bufferSize) stream.length)),
                  RAction.emit (utf8Lossy (stream.take
                    (min (min req bufferSize) stream.length))) false]
                  = [stream.take (min (min req bufferSize) stream.length)]
                  from rfl]
              simp only [List.all_cons, List.all_nil, Bool.and_true,
                Bool.and_eq_true, decide_eq_true_eq]
              exact ⟨hlen, hne⟩

/-- Any read-loop run whose schedule ends with an EOF read (`Ok(0)`) or
with a read error exits the loop. -/
theorem readerLoop_ends_exits (pre : List OsRead) :
    ∀ (stream : List Nat) (emits : List Bool),
      (readerLoop stream (pre ++ [OsRead.data 0]) emits).2 = true ∧
      (readerLoop stream (pre ++ [OsRead.ioerr]) emits).2 = true := by
  induction pre with
  | nil =>
      intro stream emits
      refine ⟨?_, rfl⟩
      rw [show ([] : List OsRead) ++ [OsRead.data 0] = [OsRead.data 0] from rfl,
        readerLoop_data_eof stream 0 [] emits (by simp)]
  | cons ev rest ih =>
      intro stream emits
      cases ev with
      | ioerr => exact ⟨rfl, rfl⟩
      | data req =>
          constructor
          · rw [List.cons_append]
            by_cases hn : min (min req bufferSize) stream.length = 0
            · rw [readerLoop_data_eof _ _ _ _ hn]
            · by_cases he : emits.headD true = true
              · rw [readerLoop_data_ok _ _ _ _ hn he]
                exact (ih _ emits.tail).1
              · rw [readerLoop_data_fail _ _ _ _ hn he]
          · rw [List.cons_append]
            by_cases hn : min (min req bufferSize) stream.length = 0
            · rw [readerLoop_data_eof _ _ _ _ hn]
            · by_cases he : emits.headD true = true
              · rw [readerLoop_data_ok _ _ _ _ hn he]
                exact (ih _ emits.tail).2
              · rw [readerLoop_data_fail _ _ _ _ hn he]

/-- C8: a read returning zero bytes (end-of-stream) and a read returning an
error are handled identically: each makes the loop exit, and in both cases
the thread then proceeds to the same teardown, the wait on the child
process handle (pty.rs lines 84-95).  The loop returns nothing to any
caller — its errors are visible only as the end of the event trace. -/
theorem reader_eof_error_same_teardown (stream : List Nat) (pre : List OsRead)
    (emits : List Bool) :
    (readerLoop stream (pre ++ [OsRead.data 0]) emits).2 = true ∧
    (readerLoop stream (pre ++ [OsRead.ioerr]) emits).2 = true ∧
    readerThread stream (pre ++ [OsRead.data 0]) emits
      = (readerLoop stream (pre ++ [OsRead.data 0]) emits).1
          ++ [RAction.teardownWait] ∧
    readerThread stream (pre ++ [OsRead.ioerr]) emits
      = (readerLoop stream (pre ++ [OsRead.ioerr]) emits).1
          ++ [RAction.teardownWait] := by
  obtain ⟨h0, h1⟩ := readerLoop_ends_exits pre stream emits
  exact ⟨h0, h1, by simp [readerThread, h0], by simp [readerThread, h1]⟩

/-- C10: if emitting an output event fails, the loop terminates at once —
the failed emission is the last loop action, so no further reads or
emissions occur — and the thread proceeds to the same child-wait teardown
as on end-of-stream (pty.rs lines 79-82 and 92-95). -/
theorem emit_failure_stops_loop (stream : List Nat) (sched : List OsRead)
    (emits : List Bool) :
    stopsAfterFailedEmit (readerLoop stream sched emits).1 = true ∧
    (hasFailedEmit (readerLoop stream sched emits).1 = true →
      (readerLoop stream sched emits).2 = true ∧
      (readerThread stream sched emits).getLast?
        = some RAction.teardownWait) := by
  induction sched generalizing stream emits with
  | nil =>
      refine ⟨rfl, fun h => ?_⟩
      simp [readerLoop, hasFailedEmit] at h
  | cons ev rest ih =>
      cases ev with
      | ioerr =>
          refine ⟨rfl, fun h => ?_⟩
          simp [readerLoop, hasFailedEmit, isFailedEmit] at h
      | data req =>
          by_cases hn : min (min req bufferSize) stream.length = 0
          · refine ⟨?_, fun h => ?_⟩
            · rw [readerLoop_data_eof _ _ _ _ hn]; rfl
            · rw [readerLoop_data_eof _ _ _ _ hn] at h
              simp [hasFailedEmit, isFailedEmit] at h
          · by_cases he : emits.headD true = true
            · obtain ⟨ih1, ih2⟩ :=
                ih (stream.drop (min (min req bufferSize) stream.length)) emits.tail
              refine ⟨?_, fun h => ?_⟩
              · rw [readerLoop_data_ok _ _ _ _ hn he]
                simpa [stopsAfterFailedEmit, isFailedEmit] using ih1
              · rw [readerLoop_data_ok _ _ _ _ hn he] at h
                have hsub : hasFailedEmit
                    (readerLoop (stream.drop
                      (min (min req bufferSize) stream.length)) rest
                      emits.tail).1 = true := by
                  simpa [hasFailedEmit, isFailedEmit] using h
                obtain ⟨hex, _⟩ := ih2 hsub
                refine ⟨?_, ?_⟩
                · rw [readerLoop_data_ok _ _ _ _ hn he]
                  exact hex
                · have hexf : (readerLoop stream (OsRead.data req :: rest)
                      emits).2 = true := by
                    rw [readerLoop_data_ok _ _ _ _ hn he]
                    exact hex
                  rw [show readerThread stream (OsRead.data req :: rest) emits
                      = (readerLoop stream (OsRead.data req :: rest) emits).1
                        ++ if (readerLoop stream (OsRead.data req :: rest)
                            emits).2 then [RAction.teardownWait] else []
                      from rfl, hexf]
                  simp [List.getLast?_concat]
            · refine ⟨?_, fun h => ?_⟩
              · rw [readerLoop_data_fail _ _ _ _ hn he]; rfl
              · have hexf : (readerLoop stream (OsRead.data req :: rest)
                    emits).2 = true := by
                  rw [readerLoop_data_fail _ _ _ _ hn he]
                refine ⟨hexf, ?_⟩
                rw [show readerThread stream (OsRead.data req :: rest) emits
                    = (readerLoop stream (OsRead.data req :: rest) emits).1
                      ++ if (readerLoop stream (OsRead.data req :: rest)
                          emits).2 then [RAction.teardownWait] else []
                    from rfl, hexf]
                simp [List.getLast?_concat]

/-- Witness for C10: a failed emission on the first chunk ends the loop and
the thread tears down with the child wait. -/
theorem emit_failure_stops_loop_witness :
    hasFailedEmit (readerLoop [104, 105] [OsRead.data 2] [false]).1 = true ∧
    (readerLoop [104, 105] [OsRead.data 2] [false]).2 = true ∧
    (readerThread [104, 105] [OsRead.data 2] [false]).getLast?
      = some RAction.teardownWait :=
  ⟨rfl,
   ((emit_failure_stops_loop [104, 105] [OsRead.data 2] [false]).2 rfl).1,
   ((emit_failure_stops_loop [104, 105] [OsRead.data 2] [false]).2 rfl).2⟩

/-- On a successful spawn with an initial command, the write of the command
followed by a newline is one of the spawn actions (pty.rs lines 56-58). -/
theorem writeInitial_mem_spawn_success (st : PtyState) (gen : Nat)
    (cmd : String) :
    SAction.writeInitial (cmd ++ "\n")
      ∈ (spawn_pty st gen (some cmd) .success).2.2 := by
  obtain ⟨p, w, c⟩ := st
  cases c <;> simp [spawn_pty]

/-- C7: on every successful spawn with an initial command, the command
followed by a newline is written to the writer, and in the happens-before
linearisation this write strictly precedes every read of the reader loop
(the write at pty.rs line 57 precedes the `thread::spawn` of line 73, which
precedes the thread's first read at line 76). -/
theorem initial_write_before_first_read (st : PtyState) (gen : Nat)
    (cmd : String) (stream : List Nat) (sched : List OsRead)
    (emits : List Bool) :
    LinAction.spawnAct (SAction.writeInitial (cmd ++ "\n"))
      ∈ spawn_then_reader st gen (some cmd) .success stream sched emits ∧
    ∀ (i j : Nat) (bs : List Nat),
      (spawn_then_reader st gen (some cmd) .success stream sched emits)[i]?
        = some (LinAction.spawnAct (SAction.writeInitial (cmd ++ "\n"))) →
      (spawn_then_reader st gen (some cmd) .success stream sched emits)[j]?
        = some (LinAction.readerAct (RAction.read bs)) →
      i < j := by
  have hdef : spawn_then_reader st gen (some cmd) .success stream sched emits
      = ((spawn_pty st gen (some cmd) .success).2.2).map LinAction.spawnAct
        ++ (readerThread stream sched emits).map LinAction.readerAct := rfl
  constructor
  · rw [hdef]
    exact List.mem_append_left _
      (List.mem_map_of_mem _ (writeInitial_mem_spawn_success st gen cmd))
  · intro i j bs hi hj
    rw [hdef] at hi hj
    have hiL : i < (((spawn_pty st gen (some cmd) .success).2.2).map
        LinAction.spawnAct).length := by
      by_contra hge
      push_neg at hge
      rw [List.getElem?_append_right hge, List.getElem?_map] at hi
      rcases Option.map_eq_some'.mp hi with ⟨a, _, ha⟩
      simp at ha
    have hjL : (((spawn_pty st gen (some cmd) .success).2.2).map
        LinAction.spawnAct).length ≤ j := by
      by_contra hlt
      push_neg at hlt
      rw [List.getElem?_append_left hlt, List.getElem?_map] at hj
      rcases Option.map_eq_some'.mp hj with ⟨a, _, ha⟩
      simp at ha
    omega

/-- Witness for C7: a concrete spawn with initial command `"ls"`; the write
of `"ls" ++ "\n"` sits at index 2 of the linearisation and the first read
at index 7, and the theorem yields `2 < 7`. -/
theorem initial_write_before_first_read_witness :
    (spawn_then_reader PtyState.default 0 (some "ls") .success [104]
        [OsRead.data 5, OsRead.data 1] [])[2]?
      = some (LinAction.spawnAct (SAction.writeInitial ("ls" ++ "\n"))) ∧
    (spawn_then_reader PtyState.default 0 (some "ls") .success [104]
        [OsRead.data 5, OsRead.data 1] [])[7]?
      = some (LinAction.readerAct (RAction.read [104])) ∧
    (2 : Nat) < 7 :=
  ⟨rfl, rfl,
   (initial_write_before_first_read PtyState.default 0 "ls" [104]
      [OsRead.data 5, OsRead.data 1] []).2 2 7 [104] rfl rfl⟩

/-- The slot and live-children components of a step depend only on the
executed instruction, as computed by `saStep`. -/
theorem cstep_slot_alive (sys : CSys) (ev : ThreadId × CInstr) :
    ((cstep sys ev).slot, (cstep sys ev).alive)
      = saStep (sys.slot, sys.alive) ev.2 := by
  obtain ⟨slot, alive, waits⟩ := sys
  obtain ⟨t, i⟩ := ev
  cases i <;> cases slot <;> rfl

/-- An event of a trace contributes its instruction to its thread's
program projection. -/
theorem mem_eventsOf (e : ThreadId × CInstr) (tr : List (ThreadId × CInstr))
    (he : e ∈ tr) : e.2 ∈ eventsOf e.1 tr :=
  List.mem_map_of_mem _ (List.mem_filter.mpr ⟨he, by simp⟩)

/-- When every non-main event of a trace is a teardown wait, the final slot
and live set are those produced by the main thread's instructions alone
(teardown waits only log, pty.rs line 94). -/
theorem foldl_slot_alive (tr : List (ThreadId × CInstr)) :
    ∀ sys : CSys,
      (∀ e ∈ tr, e.1 ≠ ThreadId.main → e.2 = CInstr.teardownWait) →
      ((tr.foldl cstep sys).slot, (tr.foldl cstep sys).alive)
        = (eventsOf ThreadId.main tr).foldl saStep (sys.slot, sys.alive) := by
  induction tr with
  | nil => intro sys _; rfl
  | cons e rest ih =>
      intro sys h
      have hres : ∀ x ∈ rest, x.1 ≠ ThreadId.main → x.2 = CInstr.teardownWait :=
        fun x hx => h x (List.mem_cons_of_mem _ hx)
      by_cases hm : e.1 = ThreadId.main
      · have hev : eventsOf ThreadId.main (e :: rest)
            = e.2 :: eventsOf ThreadId.main rest := by
          simp [eventsOf, List.filter_cons, hm]
        simp only [List.foldl_cons, hev]
        rw [ih (cstep sys e) hres, cstep_slot_alive]
      · have hev : eventsOf ThreadId.main (e :: rest)
            = eventsOf ThreadId.main rest := by
          simp [eventsOf, List.filter_cons, hm]
        have hpres : ((cstep sys e).slot, (cstep sys e).alive)
            = (sys.slot, sys.alive) := by
          rw [cstep_slot_alive, h e (List.mem_cons_self _ _) hm]
          rfl
        simp only [List.foldl_cons, hev]
        rw [ih (cstep sys e) hres, hpres]

/-- C3, failing interleaving evaluated: the admissible interleaving
`doubleWaitTrace` — `spawn`, replacing `spawn` before reader 0 finishes,
then both reader teardowns — makes child 1 waited twice and makes
session 0's reader wait on session 1's child (session 0's own child is 0):
the reader teardown waits on whatever child currently occupies the shared
slot, without taking it (`as_mut`, pty.rs line 93), so the per-session
exactly-once wait is violated. -/
theorem double_wait_on_replacement :
    wellFormedTwoSpawn doubleWaitTrace = true ∧
    (crun doubleWaitTrace).waits
      = [(ThreadId.main, 0), (ThreadId.reader 0, 1), (ThreadId.reader 1, 1)] ∧
    ((crun doubleWaitTrace).waits.filter fun w => w.2 == 1).length = 2 ∧
    (ThreadId.reader 0, 1) ∈ (crun doubleWaitTrace).waits := by
  refine ⟨by decide, rfl, rfl, by decide⟩

/-- C4, counterexample: an admissible execution of the two-spawn scenario
in which the prior session's reader thread is not retired before the new
session's reader loop starts — the new reader is started at index 7 while
reader 0 still acts at index 9.  `spawn_pty` holds no handle to the
previous reader thread and never joins it, so such interleavings are
reachable. -/
theorem new_reader_starts_before_old_retired_cex :
    wellFormedTwoSpawn readerOutlivesTrace = true ∧
    readerOutlivesTrace[7]? = some (ThreadId.main, CInstr.startReader 1) ∧
    readerOutlivesTrace[9]? = some (ThreadId.reader 0, CInstr.teardownWait) := by
  refine ⟨by decide, rfl, rfl⟩

/-- C4, amended: on a replacing spawn the prior session's child is killed
and reaped before anything of the new session is created (the kill and wait
are the first two spawn actions and the reader loop is started last), the
new child is installed, and in every admissible interleaving of the
two-spawn scenario exactly one child — the new one — is alive once the
trace completes; the prior reader thread, however, is not joined and may
still be running after the new reader loop starts. -/
theorem spawn_replacement_single_live_child (st : PtyState) (gen : Nat)
    (cmd : Option String) (c : Nat) (tr : List (ThreadId × CInstr)) :
    (st.child = some c →
      ((spawn_pty st gen cmd .success).2.2).take 2
        = [SAction.killOldChild c, SAction.waitOldChild c] ∧
      ((spawn_pty st gen cmd .success).2.2).getLast?
        = some SAction.startReaderLoop) ∧
    (spawn_pty st gen cmd .success).1.child = some gen ∧
    (wellFormedTwoSpawn tr = true → (crun tr).alive = [1]) := by
  refine ⟨fun hc => ?_, rfl, fun hwf => ?_⟩
  · obtain ⟨p, w, ch⟩ := st
    simp only at hc
    subst hc
    cases cmd <;> exact ⟨rfl, rfl⟩
  · simp only [wellFormedTwoSpawn, Bool.and_eq_true, decide_eq_true_eq,
      List.all_eq_true] at hwf
    obtain ⟨⟨⟨⟨hmain, hr0⟩, hr1⟩, hthreads⟩, _⟩ := hwf
    have hside : ∀ e ∈ tr, e.1 ≠ ThreadId.main → e.2 = CInstr.teardownWait := by
      intro e he hne
      have ht := hthreads e he
      rcases ht with h | h | h
      · exact absurd h hne
      · have hmem : e.2 ∈ eventsOf (ThreadId.reader 0) tr := by
          rw [← h]; exact mem_eventsOf e tr he
        rw [hr0] at hmem
        simpa [readerProg] using hmem
      · have hmem : e.2 ∈ eventsOf (ThreadId.reader 1) tr := by
          rw [← h]; exact mem_eventsOf e tr he
        rw [hr1] at hmem
        simpa [readerProg] using hmem
    have hfold := foldl_slot_alive tr ⟨none, [], []⟩ hside
    rw [hmain] at hfold
    rw [show crun tr = tr.foldl cstep ⟨none, [], []⟩ from rfl]
    have halive := congrArg Prod.snd hfold
    simp only at halive
    rw [halive]
    rfl

/-- Witness for the amended C4: a concrete replacement from a running
session and the concrete interleaving `readerOutlivesTrace`. -/
theorem spawn_replacement_single_live_child_witness :
    ((spawn_pty ⟨some 0, some 0, some 0⟩ 1 none .success).2.2).take 2
      = [SAction.killOldChild 0, SAction.waitOldChild 0] ∧
    ((spawn_pty ⟨some 0, some 0, some 0⟩ 1 none .success).2.2).getLast?
      = some SAction.startReaderLoop ∧
    (crun readerOutlivesTrace).alive = [1] :=
  ⟨((spawn_replacement_single_live_child ⟨some 0, some 0, some 0⟩ 1 none 0
      readerOutlivesTrace).1 rfl).1,
   ((spawn_replacement_single_live_child ⟨some 0, some 0, some 0⟩ 1 none 0
      readerOutlivesTrace).1 rfl).2,
   (spawn_replacement_single_live_child ⟨some 0, some 0, some 0⟩ 1 none 0
      readerOutlivesTrace).2.2 (by decide)⟩
